import Mathlib

/-!
Verification of the Multi-Strip Bus Output Adapter of
spixels-pixelpusher (src/spixels-pixel-push.cc), a shallow embedding of
the SpixelsDevice adapter class, the parseType strip-type resolver and
the option-processing and validation logic of main.

External collaborators (led-strip.h, multi-spi.h, pp-server.h) are not
part of the repository slice; their interfaces are modelled from the
specification where a claim depends on them, and each such definition
says so in its doc comment.
-/

namespace SpixelsPush

/-- pp::PixelColor: three 8-bit channel intensities red, green, blue
(pp-server.h; the adapter only reads the three fields). -/
structure PixelColor where
  red : Nat
  green : Nat
  blue : Nat
deriving DecidableEq

/-- One call forwarded to a Strip Driver:
LEDStrip::SetPixel(pixel, r, g, b). -/
structure StripWrite where
  pixel : Int
  red : Nat
  green : Nat
  blue : Nat
deriving DecidableEq

/-- The four strip chipset families recognised by parseType
(spixels::CreateAPA102Strip and friends, src lines 96-99). -/
inductive StripFamily where
  | APA102
  | WS2801
  | LPD6803
  | LPD8806
deriving DecidableEq

/-- Modelled from the spec: a Strip Driver (led-strip.h is not under
src/). It is produced by the strip factory from (bus, connector pin,
length); the bus is the single shared BusState of the owning device, so
the driver records the remaining construction arguments (family, pin,
length) plus its staged buffer: the sequence of set-pixel writes
forwarded to it since the previous bus commit. -/
structure StripState where
  family : StripFamily
  pin : Int
  len : Int
  staged : List StripWrite
deriving DecidableEq

/-- Modelled from the spec: the Bus Controller (multi-spi.h is not under
src/). CreateDirectMultiSPI(spi_mhz) creates it at a clock rate; the
commit operation SendBuffers transmits every strip's staged buffer as a
single transaction, recorded here as one entry of commits (the list of
per-strip staged-write lists carried by that transaction). -/
structure BusState where
  spi_mhz : Int
  commits : List (List (List StripWrite))
deriving DecidableEq

/-- The adapter SpixelsDevice (src lines 36-74): the four data members
num_strips_, strip_len_, strips_ (the owned array of Strip Drivers) and
spi_ (the owned Bus Controller). -/
structure SpixelsDevice where
  num_strips_ : Int
  strip_len_ : Int
  strips_ : List StripState
  spi_ : BusState
deriving DecidableEq

/-- In-place update of the k-th element of a list (the effect of
strips_[strip]->... on the owned array); identity when k is out of
bounds. -/
def updateAt (k : Nat) (f : α → α) (l : List α) : List α :=
  match l, k with
  | [], _ => []
  | x :: xs, 0 => f x :: xs
  | x :: xs, k2 + 1 => x :: updateAt k2 f xs

/-- Modelled from the spec: LEDStrip::SetPixel(pixel, r, g, b)
(led-strip.h is not under src/) stages the write in the strip's pending
buffer; the adapter forwards col.red, col.green, col.blue verbatim
(src line 62). -/
def pushWrite (pixel : Int) (col : PixelColor) (s : StripState) : StripState :=
  { s with staged := s.staged ++ [⟨pixel, col.red, col.green, col.blue⟩] }

/-- SpixelsDevice::SetPixel (src lines 59-63): if strip is less than 0 or
at least num_strips_ the call returns at once, otherwise it forwards
(pixel, col.red, col.green, col.blue) to strips_[strip]. -/
def SpixelsDevice.SetPixel (d : SpixelsDevice) (strip pixel : Int)
    (col : PixelColor) : SpixelsDevice :=
  if strip < 0 ∨ d.num_strips_ ≤ strip then d
  else { d with strips_ := updateAt strip.toNat (pushWrite pixel col) d.strips_ }

/-- A strip after a bus commit: its staged buffer is empty again. -/
def clearStaged (s : StripState) : StripState :=
  { s with staged := [] }

/-- SpixelsDevice::FlushFrame (src lines 65-67) calls spi_->SendBuffers()
exactly once. Modelled from the spec (multi-spi.h is not under src/):
SendBuffers commits every strip's pending buffer to the bus as one
transaction, after which the buffers are no longer pending. -/
def SpixelsDevice.FlushFrame (d : SpixelsDevice) : SpixelsDevice :=
  { d with
    strips_ := d.strips_.map clearStaged,
    spi_ := { d.spi_ with
              commits := d.spi_.commits ++ [d.strips_.map StripState.staged] } }

/-- SpixelsDevice::num_strips (src line 56). -/
def SpixelsDevice.num_strips (d : SpixelsDevice) : Int := d.num_strips_

/-- SpixelsDevice::num_pixel_per_strip (src line 57). -/
def SpixelsDevice.num_pixel_per_strip (d : SpixelsDevice) : Int := d.strip_len_

theorem updateAt_length (k : Nat) (f : α → α) (l : List α) :
    (updateAt k f l).length = l.length := by
  induction l generalizing k with
  | nil => simp [updateAt]
  | cons x xs ih =>
    cases k with
    | zero => simp [updateAt]
    | succ k2 => simp [updateAt, ih]

theorem updateAt_getElem?_ne (k j : Nat) (f : α → α) (l : List α)
    (h : j ≠ k) : (updateAt k f l)[j]? = l[j]? := by
  induction l generalizing k j with
  | nil => simp [updateAt]
  | cons x xs ih =>
    cases k with
    | zero =>
      cases j with
      | zero => exact absurd rfl h
      | succ j2 => simp [updateAt]
    | succ k2 =>
      cases j with
      | zero => simp [updateAt]
      | succ j2 => simpa [updateAt] using ih k2 j2 (by omega)

theorem updateAt_getElem?_eq (k : Nat) (f : α → α) (l : List α) :
    (updateAt k f l)[k]? = l[k]?.map f := by
  induction l generalizing k with
  | nil => simp [updateAt]
  | cons x xs ih =>
    cases k with
    | zero => simp [updateAt]
    | succ k2 => simpa [updateAt] using ih k2

/-- C1: a set_pixel call with a strip index outside [0, strip_count)
leaves the whole adapter state (in particular every strip's staged
buffer) unchanged and, being a total function, signals no error; a call
with a strip index in range leaves the bus, the topology fields and
every other strip untouched and appends exactly the write
(pixel, red, green, blue) to the addressed strip's staged buffer. -/
theorem setPixel_contract (d : SpixelsDevice) (strip pixel : Int)
    (col : PixelColor) :
    ((strip < 0 ∨ d.num_strips_ ≤ strip) → d.SetPixel strip pixel col = d) ∧
    (0 ≤ strip → strip < d.num_strips_ →
      (d.SetPixel strip pixel col).spi_ = d.spi_ ∧
      (d.SetPixel strip pixel col).num_strips_ = d.num_strips_ ∧
      (d.SetPixel strip pixel col).strip_len_ = d.strip_len_ ∧
      (∀ j : Nat, j ≠ strip.toNat →
        (d.SetPixel strip pixel col).strips_[j]? = d.strips_[j]?) ∧
      (d.SetPixel strip pixel col).strips_[strip.toNat]? =
        d.strips_[strip.toNat]?.map (pushWrite pixel col)) := by
  constructor
  · intro h
    simp [SpixelsDevice.SetPixel, if_pos h]
  · intro h0 hn
    have hcond : ¬ (strip < 0 ∨ d.num_strips_ ≤ strip) := by omega
    have hset : d.SetPixel strip pixel col =
        { d with strips_ := updateAt strip.toNat (pushWrite pixel col) d.strips_ } := by
      rw [SpixelsDevice.SetPixel, if_neg hcond]
    rw [hset]
    exact ⟨rfl, rfl, rfl, fun j hj => updateAt_getElem?_ne _ j _ _ hj,
      updateAt_getElem?_eq _ _ _⟩

/-- A concrete adapter as constructed with clock 4, family APA102,
2 strips of length 3 (used to instantiate the general theorems). -/
def demoDevice : SpixelsDevice :=
  { num_strips_ := 2
    strip_len_ := 3
    strips_ := [⟨StripFamily.APA102, 1, 3, []⟩, ⟨StripFamily.APA102, 2, 3, []⟩]
    spi_ := ⟨4, []⟩ }

/-- C1 witness: the contract instantiated on the concrete two-strip
adapter, strip index 5 (out of range) for the first part and strip
index 0 for the second. -/
theorem setPixel_contract_witness :
    (demoDevice.SetPixel 5 0 ⟨1, 2, 3⟩ = demoDevice) ∧
    (demoDevice.SetPixel 0 1 ⟨255, 0, 0⟩).strips_[0]? =
      demoDevice.strips_[0]?.map (pushWrite 1 ⟨255, 0, 0⟩) :=
  ⟨(setPixel_contract demoDevice 5 0 ⟨1, 2, 3⟩).1 (by decide),
   ((setPixel_contract demoDevice 0 1 ⟨255, 0, 0⟩).2 (by decide) (by decide)).2.2.2.2⟩

/-- SpixelsDevice::SpixelsDevice (src lines 38-48). The member
initialisers set num_strips_ and strip_len_ verbatim, allocate the
strips_ array with new LEDStrip*[num_strips_] — which fails
(std::bad_array_new_length, C++11 expr.new) when num_strips_ is
negative, hence the Option — and create the Bus Controller; the body
then invokes the strip factory once per i in [0, num_strips_) with
(spi_, SPIPinForConnector(i+1), strip_len_). The connector-to-pin map
SPIPinForConnector (multi-spi.h, not under src/) is taken as the
parameter pinFor, and the factory for family fam is modelled from the
spec as producing a driver recording its construction arguments. -/
def SpixelsDevice.construct (spi_mhz : Int) (pinFor : Int → Int)
    (fam : StripFamily) (num_strips strip_len : Int) : Option SpixelsDevice :=
  if num_strips < 0 then none
  else some
    { num_strips_ := num_strips
      strip_len_ := strip_len
      strips_ := (List.range num_strips.toNat).map
        (fun (i : Nat) => { family := fam, pin := pinFor ((i : Int) + 1),
                            len := strip_len, staged := [] })
      spi_ := { spi_mhz := spi_mhz, commits := [] } }

theorem construct_props (c L N : Int) (pinFor : Int → Int)
    (fam : StripFamily) (d : SpixelsDevice)
    (h : SpixelsDevice.construct c pinFor fam N L = some d) :
    d.num_strips_ = N ∧ d.strip_len_ = L ∧
    d.spi_ = { spi_mhz := c, commits := [] } ∧
    d.strips_.length = N.toNat ∧
    ∀ i : Nat, i < N.toNat →
      d.strips_[i]? =
        some { family := fam, pin := pinFor ((i : Int) + 1), len := L,
               staged := [] } := by
  by_cases hN : N < 0
  · rw [SpixelsDevice.construct, if_pos hN] at h
    exact absurd h (by simp)
  · rw [SpixelsDevice.construct, if_neg hN] at h
    cases h
    refine ⟨rfl, rfl, rfl, by simp, ?_⟩
    intro i hi
    rw [List.getElem?_map, List.getElem?_range hi]
    rfl

/-- C4: construction with clock rate c, family fam, strip count N and
length L (when it returns, i.e. the array allocation succeeds) creates
exactly one Bus Controller, at clock rate c with no commits yet, and
populates the strip array with exactly N.toNat drivers, the i-th (0
based, so in increasing connector order) built from the pin mapped from
the 1-based connector index i+1, the shared bus and the length L. -/
theorem construct_wiring (c L N : Int) (pinFor : Int → Int)
    (fam : StripFamily) (d : SpixelsDevice)
    (h : SpixelsDevice.construct c pinFor fam N L = some d) :
    d.spi_ = { spi_mhz := c, commits := [] } ∧
    d.strips_.length = N.toNat ∧
    ∀ i : Nat, i < N.toNat →
      d.strips_[i]? =
        some { family := fam, pin := pinFor ((i : Int) + 1), len := L,
               staged := [] } := by
  have hp := construct_props c L N pinFor fam d h
  exact ⟨hp.2.2.1, hp.2.2.2.1, hp.2.2.2.2⟩

/-- C4 witness: constructing with clock 4, APA102, 2 strips of length 3
and the identity pin map yields exactly the demo device: one bus at
clock 4, strips on pins 1 and 2. -/
theorem construct_wiring_witness :
    demoDevice.spi_ = { spi_mhz := 4, commits := [] } ∧
    demoDevice.strips_.length = (2 : Int).toNat ∧
    ∀ i : Nat, i < (2 : Int).toNat →
      demoDevice.strips_[i]? =
        some { family := StripFamily.APA102, pin := (fun z => z) ((i : Int) + 1),
               len := 3, staged := [] } :=
  construct_wiring 4 3 2 (fun z => z) StripFamily.APA102 demoDevice (by decide)

/-- C10 counterexample: with strip count -1 the adapter is not
constructed at all — new LEDStrip*[-1] fails — so construction does not
succeed for negative strip counts, contrary to the claim. -/
theorem construct_negative_fails :
    SpixelsDevice.construct 4 (fun z => z) StripFamily.APA102 (-1) 144 = none := by
  decide

/-- C10 (amended): construction performs no validation of N or L — for
every N that is not negative and every L (including L negative or zero)
it succeeds, reports the given N and L verbatim through the topology
queries, creates a Strip Driver exactly for each i with 0 <= i < N, and
when N = 0 set_pixel is a no-op for every strip index. -/
theorem construct_no_validation (c L N : Int) (pinFor : Int → Int)
    (fam : StripFamily) (hN : 0 ≤ N) :
    ∃ d : SpixelsDevice,
      SpixelsDevice.construct c pinFor fam N L = some d ∧
      d.num_strips = N ∧ d.num_pixel_per_strip = L ∧
      d.strips_.length = N.toNat ∧
      (∀ i : Nat, i < N.toNat →
        d.strips_[i]? =
          some { family := fam, pin := pinFor ((i : Int) + 1), len := L,
                 staged := [] }) ∧
      (N = 0 → ∀ (strip pixel : Int) (col : PixelColor),
        d.SetPixel strip pixel col = d) := by
  have hN2 : ¬ N < 0 := by omega
  refine ⟨_, by rw [SpixelsDevice.construct, if_neg hN2], ?_⟩
  set d : SpixelsDevice :=
    { num_strips_ := N
      strip_len_ := L
      strips_ := (List.range N.toNat).map
        (fun (i : Nat) => { family := fam, pin := pinFor ((i : Int) + 1),
                            len := L, staged := [] })
      spi_ := { spi_mhz := c, commits := [] } } with hd
  have hp := construct_props c L N pinFor fam d
    (by rw [SpixelsDevice.construct, if_neg hN2])
  refine ⟨hp.1, hp.2.1, hp.2.2.2.1, hp.2.2.2.2, ?_⟩
  intro h0 strip pixel col
  have : strip < 0 ∨ d.num_strips_ ≤ strip := by
    rw [hp.1, h0]; omega
  rw [SpixelsDevice.SetPixel, if_pos this]

/-- C10 amended witness: strip count 0 — construction succeeds with no
strips, topology reports (0, 144), and set_pixel at index 0 is a
no-op. -/
theorem construct_no_validation_witness :
    ∃ d : SpixelsDevice,
      SpixelsDevice.construct 4 (fun z => z) StripFamily.APA102 0 144 = some d ∧
      d.num_strips = 0 ∧ d.num_pixel_per_strip = 144 ∧
      d.strips_.length = (0 : Int).toNat ∧
      (∀ i : Nat, i < (0 : Int).toNat →
        d.strips_[i]? =
          some { family := StripFamily.APA102, pin := (fun z => z) ((i : Int) + 1),
                 len := 144, staged := [] }) ∧
      ((0 : Int) = 0 → ∀ (strip pixel : Int) (col : PixelColor),
        d.SetPixel strip pixel col = d) :=
  construct_no_validation 4 144 0 (fun z => z) StripFamily.APA102 (by decide)

theorem setPixel_fields (d : SpixelsDevice) (s p : Int) (c : PixelColor) :
    (d.SetPixel s p c).num_strips_ = d.num_strips_ ∧
    (d.SetPixel s p c).strip_len_ = d.strip_len_ ∧
    (d.SetPixel s p c).spi_ = d.spi_ ∧
    (d.SetPixel s p c).strips_.length = d.strips_.length := by
  rw [SpixelsDevice.SetPixel]
  split
  · exact ⟨rfl, rfl, rfl, rfl⟩
  · exact ⟨rfl, rfl, rfl, updateAt_length _ _ _⟩

/-- One call of the adapter interface used by the frame-delivery
server: a set_pixel or a flush. -/
inductive DeviceOp where
  | set (strip pixel : Int) (col : PixelColor)
  | flush
deriving DecidableEq

def applyOp (d : SpixelsDevice) (op : DeviceOp) : SpixelsDevice :=
  match op with
  | .set s p c => d.SetPixel s p c
  | .flush => d.FlushFrame

def applyDeviceOps (d : SpixelsDevice) (ops : List DeviceOp) : SpixelsDevice :=
  match ops with
  | [] => d
  | op :: rest => applyDeviceOps (applyOp d op) rest

theorem applyOp_topology (d : SpixelsDevice) (op : DeviceOp) :
    (applyOp d op).num_strips_ = d.num_strips_ ∧
    (applyOp d op).strip_len_ = d.strip_len_ := by
  cases op with
  | set s p c =>
    exact ⟨(setPixel_fields d s p c).1, (setPixel_fields d s p c).2.1⟩
  | flush => exact ⟨rfl, rfl⟩

theorem applyDeviceOps_topology (ops : List DeviceOp) (d : SpixelsDevice) :
    (applyDeviceOps d ops).num_strips_ = d.num_strips_ ∧
    (applyDeviceOps d ops).strip_len_ = d.strip_len_ := by
  induction ops generalizing d with
  | nil => exact ⟨rfl, rfl⟩
  | cons op rest ih =>
    have h1 := applyOp_topology d op
    have h2 := ih (applyOp d op)
    exact ⟨h2.1.trans h1.1, h2.2.trans h1.2⟩

/-- C3: an adapter constructed with strip count N and length L reports
topology (N, L), and the report is unchanged by any sequence of
set_pixel and flush operations (the topology queries themselves read
the two immutable fields, so repeating them cannot change anything). -/
theorem topology_immutable (c L N : Int) (pinFor : Int → Int)
    (fam : StripFamily) (d : SpixelsDevice)
    (h : SpixelsDevice.construct c pinFor fam N L = some d)
    (ops : List DeviceOp) :
    (applyDeviceOps d ops).num_strips = N ∧
    (applyDeviceOps d ops).num_pixel_per_strip = L := by
  have hp := construct_props c L N pinFor fam d h
  have ht := applyDeviceOps_topology ops d
  exact ⟨ht.1.trans hp.1, ht.2.trans hp.2.1⟩

/-- C3 witness: the demo device (2 strips of length 3) still reports
topology (2, 3) after two writes and a flush. -/
theorem topology_immutable_witness :
    (applyDeviceOps demoDevice
        [DeviceOp.set 0 1 ⟨255, 0, 0⟩, DeviceOp.set 1 2 ⟨0, 255, 0⟩,
         DeviceOp.flush]).num_strips = 2 ∧
    (applyDeviceOps demoDevice
        [DeviceOp.set 0 1 ⟨255, 0, 0⟩, DeviceOp.set 1 2 ⟨0, 255, 0⟩,
         DeviceOp.flush]).num_pixel_per_strip = 3 :=
  topology_immutable 4 3 2 (fun z => z) StripFamily.APA102 demoDevice (by decide)
    [DeviceOp.set 0 1 ⟨255, 0, 0⟩, DeviceOp.set 1 2 ⟨0, 255, 0⟩, DeviceOp.flush]

/-- One set_pixel call as issued by the server between two flushes. -/
structure SetCall where
  strip : Int
  pixel : Int
  col : PixelColor
deriving DecidableEq

def writeOf (c : SetCall) : StripWrite :=
  ⟨c.pixel, c.col.red, c.col.green, c.col.blue⟩

def applySets (d : SpixelsDevice) (calls : List SetCall) : SpixelsDevice :=
  match calls with
  | [] => d
  | c :: rest => applySets (d.SetPixel c.strip c.pixel c.col) rest

/-- The writes of a call sequence that land in strip j of an adapter
with strip count n: those whose strip index is in range and maps to j,
in call order. -/
def stagedFor (n : Int) (j : Nat) (calls : List SetCall) : List StripWrite :=
  calls.filterMap
    (fun c => if 0 ≤ c.strip ∧ c.strip < n ∧ c.strip.toNat = j
              then some (writeOf c) else none)

theorem applySets_fields (calls : List SetCall) (d : SpixelsDevice) :
    (applySets d calls).num_strips_ = d.num_strips_ ∧
    (applySets d calls).strip_len_ = d.strip_len_ ∧
    (applySets d calls).spi_ = d.spi_ ∧
    (applySets d calls).strips_.length = d.strips_.length := by
  induction calls generalizing d with
  | nil => exact ⟨rfl, rfl, rfl, rfl⟩
  | cons c rest ih =>
    have h1 := setPixel_fields d c.strip c.pixel c.col
    have h2 := ih (d.SetPixel c.strip c.pixel c.col)
    exact ⟨h2.1.trans h1.1, h2.2.1.trans h1.2.1, h2.2.2.1.trans h1.2.2.1,
      h2.2.2.2.trans h1.2.2.2⟩

theorem stagedFor_cons (n : Int) (j : Nat) (c : SetCall) (rest : List SetCall) :
    stagedFor n j (c :: rest) =
      if 0 ≤ c.strip ∧ c.strip < n ∧ c.strip.toNat = j
      then writeOf c :: stagedFor n j rest
      else stagedFor n j rest := by
  by_cases h : 0 ≤ c.strip ∧ c.strip < n ∧ c.strip.toNat = j
  · simp [stagedFor, List.filterMap_cons, h]
  · simp [stagedFor, List.filterMap_cons, h]

theorem applySets_strips (calls : List SetCall) (d : SpixelsDevice) (j : Nat) :
    (applySets d calls).strips_[j]? =
      (d.strips_[j]?).map
        (fun s => { s with staged := s.staged ++ stagedFor d.num_strips_ j calls }) := by
  induction calls generalizing d with
  | nil =>
    show d.strips_[j]? = _
    simp [stagedFor]
  | cons c rest ih =>
    show (applySets (d.SetPixel c.strip c.pixel c.col) rest).strips_[j]? = _
    rw [ih, (setPixel_fields d c.strip c.pixel c.col).1, stagedFor_cons]
    by_cases hr : c.strip < 0 ∨ d.num_strips_ ≤ c.strip
    · have hd : d.SetPixel c.strip c.pixel c.col = d := by
        rw [SpixelsDevice.SetPixel, if_pos hr]
      have hcond : ¬ (0 ≤ c.strip ∧ c.strip < d.num_strips_ ∧ c.strip.toNat = j) := by
        rintro ⟨h1, h2, h3⟩; omega
      rw [hd, if_neg hcond]
    · have hset : d.SetPixel c.strip c.pixel c.col =
          { d with strips_ := updateAt c.strip.toNat (pushWrite c.pixel c.col) d.strips_ } := by
        rw [SpixelsDevice.SetPixel, if_neg hr]
      rw [hset]
      by_cases hj : c.strip.toNat = j
      · subst hj
        have hcond : 0 ≤ c.strip ∧ c.strip < d.num_strips_ ∧
            c.strip.toNat = c.strip.toNat := ⟨by omega, by omega, rfl⟩
        show (updateAt c.strip.toNat (pushWrite c.pixel c.col)
            d.strips_)[c.strip.toNat]?.map _ = _
        rw [updateAt_getElem?_eq, if_pos hcond]
        cases d.strips_[c.strip.toNat]? with
        | none => rfl
        | some s => simp [pushWrite, writeOf]
      · have hcond : ¬ (0 ≤ c.strip ∧ c.strip < d.num_strips_ ∧ c.strip.toNat = j) := by
          rintro ⟨h1, h2, h3⟩; exact hj h3
        show (updateAt c.strip.toNat (pushWrite c.pixel c.col) d.strips_)[j]?.map _ = _
        rw [updateAt_getElem?_ne _ _ _ _ (fun h => hj h.symm), if_neg hcond]

/-- C2: from a state in which every strip's staged buffer is empty
(just after construction or after a commit), any sequence of set_pixel
calls followed by one flush makes the Bus Controller observe exactly
one new commit, and that commit carries, for each strip, exactly the
writes staged to it by the sequence (the union of all writes staged
since the previous commit); the set_pixel calls alone leave the bus
commit list untouched. -/
theorem flush_single_commit (d : SpixelsDevice) (calls : List SetCall)
    (hstaged : ∀ s ∈ d.strips_, s.staged = []) :
    (applySets d calls).spi_.commits = d.spi_.commits ∧
    ((applySets d calls).FlushFrame).spi_.commits =
      d.spi_.commits ++
        [(List.range d.strips_.length).map
          (fun j => stagedFor d.num_strips_ j calls)] := by
  have hfields := applySets_fields calls d
  have hmain : (applySets d calls).strips_.map StripState.staged =
      (List.range d.strips_.length).map
        (fun j => stagedFor d.num_strips_ j calls) := by
    apply List.ext_getElem?
    intro j
    rw [List.getElem?_map, applySets_strips]
    by_cases hjl : j < d.strips_.length
    · rw [List.getElem?_eq_getElem hjl, List.getElem?_map,
        List.getElem?_range hjl]
      have hst : (d.strips_[j]).staged = [] :=
        hstaged _ (List.getElem_mem hjl)
      simp [hst]
    · have h1 : d.strips_[j]? = none := List.getElem?_eq_none (by omega)
      have h2 : (List.range d.strips_.length)[j]? = none :=
        List.getElem?_eq_none (by simpa using hjl)
      rw [h1, List.getElem?_map, h2]
      rfl
  constructor
  · exact congrArg BusState.commits hfields.2.2.1
  · show (applySets d calls).spi_.commits ++
        [(applySets d calls).strips_.map StripState.staged] = _
    rw [hmain, congrArg BusState.commits hfields.2.2.1]

/-- The call sequence of the end-to-end scenario: pixel 1 of strip 0
red, pixel 2 of strip 1 green, and one out-of-range call to strip 5. -/
def demoCalls : List SetCall :=
  [⟨0, 1, ⟨255, 0, 0⟩⟩, ⟨1, 2, ⟨0, 255, 0⟩⟩, ⟨5, 0, ⟨1, 2, 3⟩⟩]

/-- C2 witness: the demo scenario on the two-strip adapter — no commit
before the flush, exactly one commit after it, carrying the red write
for strip 0 and the green write for strip 1. -/
theorem flush_single_commit_witness :
    (applySets demoDevice demoCalls).spi_.commits = demoDevice.spi_.commits ∧
    ((applySets demoDevice demoCalls).FlushFrame).spi_.commits =
      demoDevice.spi_.commits ++
        [(List.range demoDevice.strips_.length).map
          (fun j => stagedFor demoDevice.num_strips_ j demoCalls)] :=
  flush_single_commit demoDevice demoCalls (by decide)

/-- The byte-wise tolower image of a string, the quantity strcasecmp
compares (ASCII, as Char.toLower only maps A-Z). -/
def lowerChars (s : String) : List Char := s.data.map Char.toLower

/-- strcasecmp(a, b) == 0: the two strings agree up to ASCII case. -/
def caseInsensitiveEq (a b : String) : Bool :=
  lowerChars a == lowerChars b

/-- parseType (src lines 95-101): map the -T argument to one of the four
strip constructors via strcasecmp, NULL when nothing matches. -/
def parseType (t : String) : Option StripFamily :=
  if caseInsensitiveEq t "APA102" then some StripFamily.APA102
  else if caseInsensitiveEq t "WS2801" then some StripFamily.WS2801
  else if caseInsensitiveEq t "LPD6803" then some StripFamily.LPD6803
  else if caseInsensitiveEq t "LPD8806" then some StripFamily.LPD8806
  else none

/-- The whitespace bytes skipped by atoi and by the %d conversion of
sscanf (C isspace). -/
def isSpaceChar (ch : Char) : Bool :=
  ch == ' ' || ch == '\t' || ch == '\n' || ch == '\x0b' || ch == '\x0c' || ch == '\r'

def leadDigits (cs : List Char) : List Char := cs.takeWhile Char.isDigit

def digitsToNat (cs : List Char) : Nat :=
  cs.foldl (fun a ch => 10 * a + (ch.toNat - 48)) 0

/-- One decimal integer conversion as performed by atoi and by a %d
directive of sscanf: skip whitespace, optional sign, then at least one
digit; returns the value and the unconsumed rest, none on matching
failure. -/
def scanInt (cs : List Char) : Option (Int × List Char) :=
  match cs.dropWhile isSpaceChar with
  | '-' :: rest =>
    if (leadDigits rest).isEmpty then none
    else some (-(digitsToNat (leadDigits rest) : Int),
               rest.drop (leadDigits rest).length)
  | '+' :: rest =>
    if (leadDigits rest).isEmpty then none
    else some ((digitsToNat (leadDigits rest) : Int),
               rest.drop (leadDigits rest).length)
  | other =>
    if (leadDigits other).isEmpty then none
    else some ((digitsToNat (leadDigits other) : Int),
               other.drop (leadDigits other).length)

/-- C atoi: the scanned value, 0 when no integer can be scanned. -/
def atoi (s : String) : Int :=
  match scanInt s.data with
  | some (v, _) => v
  | none => 0

/-- sscanf(optarg, common-percent-d comma percent-d, ...) == 2 (src lines
142-143): both integers must convert, with the literal comma matching
exactly the next input character; none models a return value below 2. -/
def parseArtnet (s : String) : Option (Int × Int) :=
  match scanInt s.data with
  | none => none
  | some (u, rest) =>
    match rest with
    | ',' :: rest2 =>
      match scanInt rest2 with
      | none => none
      | some (ch, _) => some (u, ch)
    | _ => none

def kMaxUDPPacketSize : Int := 65507

def kDefaultUDPPacketSize : Int := 1460

/-- pp::PPOptions, the fields main touches (pp-server.h is not under
src/; the field set is taken from the assignments in main and the spec's
configuration record). -/
structure PPOptions where
  artnet_universe : Int
  artnet_channel : Int
  network_interface : String
  udp_packet_size : Int
  group : Int
  controller : Int
deriving DecidableEq

/-- pp_options after src lines 104-107: artnet universe and channel set
to -1 and the interface to eth0 by main itself. Modelled from the spec:
the remaining defaults of the default-constructed PPOptions (pp-server.h
is not under src/) are group 0, controller 0 and udp_packet_size 1460. -/
def initialPPOptions : PPOptions :=
  { artnet_universe := -1
    artnet_channel := -1
    network_interface := "eth0"
    udp_packet_size := kDefaultUDPPacketSize
    group := 0
    controller := 0 }

/-- One option as delivered by a round of the getopt loop (src line 115,
optstring S:L:i:u:a:G:C:T:c:): a recognised flag with its argument, or
flagUnknown for anything getopt rejects (the default case of the
switch). -/
inductive CLIOpt where
  | flagT (arg : String)
  | flagc (arg : String)
  | flagS (arg : String)
  | flagL (arg : String)
  | flagi (arg : String)
  | flagu (arg : String)
  | flaga (arg : String)
  | flagG (arg : String)
  | flagC (arg : String)
  | flagUnknown
deriving DecidableEq

/-- The mutable state of main during the getopt loop: pp_options,
num_strips, strip_len, SPI_clock_mhz and strip_creator. -/
structure LoopState where
  pp : PPOptions
  num_strips : Int
  strip_len : Int
  clock : Int
  creator : Option StripFamily
deriving DecidableEq

/-- The state before the loop (src lines 104-112): 16 strips of length
144, clock 4, CreateAPA102Strip. -/
def initLoopState : LoopState :=
  { pp := initialPPOptions
    num_strips := 16
    strip_len := 144
    clock := 4
    creator := some StripFamily.APA102 }

/-- One arm of the switch (src lines 116-150). The -a arm returns 1 from
main when sscanf does not convert both integers; the default arm returns
usage(), which is 1 (src line 92). -/
def procOpt (st : LoopState) (o : CLIOpt) : Except Int LoopState :=
  match o with
  | .flagT s => .ok { st with creator := parseType s }
  | .flagc s => .ok { st with clock := atoi s }
  | .flagS s => .ok { st with num_strips := atoi s }
  | .flagL s => .ok { st with strip_len := atoi s }
  | .flagi s => .ok { st with pp := { st.pp with network_interface := s } }
  | .flagu s => .ok { st with pp := { st.pp with udp_packet_size := atoi s } }
  | .flagG s => .ok { st with pp := { st.pp with group := atoi s } }
  | .flagC s => .ok { st with pp := { st.pp with controller := atoi s } }
  | .flaga s =>
    match parseArtnet s with
    | some (u, ch) =>
      .ok { st with pp := { st.pp with artnet_universe := u, artnet_channel := ch } }
    | none => .error 1
  | .flagUnknown => .error 1

/-- The whole getopt loop: processes the options in order, stopping with
the exit code of the first failing arm. -/
def processOpts : LoopState → List CLIOpt → Except Int LoopState
  | st, [] => .ok st
  | st, o :: rest =>
    match procOpt st o with
    | .error e => .error e
    | .ok st2 => processOpts st2 rest

/-- How a run of main ends, up to the point where control leaves the
code under src/: an early return with an exit code before the adapter is
constructed, an aborted construction (the strip-array allocation fails),
or the call to pp::StartPixelPusherServer with the constructed adapter
and the final options (the server itself is external). -/
inductive MainOutcome where
  | earlyExit (code : Int)
  | constructionAbort
  | serverStart (dev : SpixelsDevice) (pp : PPOptions)
deriving DecidableEq

/-- main (src lines 103-173) up to the server call: the getopt loop,
then the NULL strip-creator check, the clock range check, the getuid
check (uid is the caller's uid, a parameter of the model) and the
adapter construction. pinFor is the external SPIPinForConnector map
passed through to the constructor model. -/
def runMain (opts : List CLIOpt) (uid : Nat) (pinFor : Int → Int) : MainOutcome :=
  match processOpts initLoopState opts with
  | .error code => .earlyExit code
  | .ok st =>
    match st.creator with
    | none => .earlyExit 1
    | some fam =>
      if st.clock < 1 ∨ 15 < st.clock then .earlyExit 1
      else if uid ≠ 0 then .earlyExit 1
      else
        match SpixelsDevice.construct st.clock pinFor fam st.num_strips st.strip_len with
        | none => .constructionAbort
        | some dev => .serverStart dev st.pp

/-- The SPI_clock_mhz value after the loop: atoi of the last -c
argument, 4 when -c is absent. -/
def clockStep (a : Int) (o : CLIOpt) : Int :=
  match o with
  | .flagc s => atoi s
  | _ => a

def effClock (opts : List CLIOpt) : Int := opts.foldl clockStep 4

/-- The strip_creator value after the loop: parseType of the last -T
argument, CreateAPA102Strip when -T is absent. -/
def creatorStep (a : Option StripFamily) (o : CLIOpt) : Option StripFamily :=
  match o with
  | .flagT s => parseType s
  | _ => a

def effCreator (opts : List CLIOpt) : Option StripFamily :=
  opts.foldl creatorStep (some StripFamily.APA102)

/-- The udp_packet_size value after the loop: atoi of the last -u
argument, the 1460 default when -u is absent. -/
def udpStep (a : Int) (o : CLIOpt) : Int :=
  match o with
  | .flagu s => atoi s
  | _ => a

def effUdp (opts : List CLIOpt) : Int :=
  opts.foldl udpStep kDefaultUDPPacketSize

theorem procOpt_error_one (st : LoopState) (o : CLIOpt) (e : Int)
    (h : procOpt st o = Except.error e) : e = 1 := by
  cases o with
  | flagT s => simp [procOpt] at h
  | flagc s => simp [procOpt] at h
  | flagS s => simp [procOpt] at h
  | flagL s => simp [procOpt] at h
  | flagi s => simp [procOpt] at h
  | flagu s => simp [procOpt] at h
  | flaga s =>
    simp only [procOpt] at h
    split at h
    · simp at h
    · simp at h
      omega
  | flagG s => simp [procOpt] at h
  | flagC s => simp [procOpt] at h
  | flagUnknown =>
    simp only [procOpt] at h
    simp at h
    omega

theorem processOpts_error_one (opts : List CLIOpt) (st : LoopState) (e : Int)
    (h : processOpts st opts = Except.error e) : e = 1 := by
  induction opts generalizing st with
  | nil => simp [processOpts] at h
  | cons o rest ih =>
    simp only [processOpts] at h
    cases hp : procOpt st o with
    | error e2 =>
      rw [hp] at h
      simp at h
      subst h
      exact procOpt_error_one st o e2 hp
    | ok st2 =>
      rw [hp] at h
      exact ih st2 h

theorem procOpt_ok_fields (st : LoopState) (o : CLIOpt) (st2 : LoopState)
    (h : procOpt st o = Except.ok st2) :
    st2.clock = clockStep st.clock o ∧
    st2.creator = creatorStep st.creator o ∧
    st2.pp.udp_packet_size = udpStep st.pp.udp_packet_size o := by
  cases o with
  | flagT s =>
    simp only [procOpt] at h
    injection h with h2
    subst h2
    exact ⟨rfl, rfl, rfl⟩
  | flagc s =>
    simp only [procOpt] at h
    injection h with h2
    subst h2
    exact ⟨rfl, rfl, rfl⟩
  | flagS s =>
    simp only [procOpt] at h
    injection h with h2
    subst h2
    exact ⟨rfl, rfl, rfl⟩
  | flagL s =>
    simp only [procOpt] at h
    injection h with h2
    subst h2
    exact ⟨rfl, rfl, rfl⟩
  | flagi s =>
    simp only [procOpt] at h
    injection h with h2
    subst h2
    exact ⟨rfl, rfl, rfl⟩
  | flagu s =>
    simp only [procOpt] at h
    injection h with h2
    subst h2
    exact ⟨rfl, rfl, rfl⟩
  | flaga s =>
    simp only [procOpt] at h
    split at h
    · injection h with h2
      subst h2
      exact ⟨rfl, rfl, rfl⟩
    · simp at h
  | flagG s =>
    simp only [procOpt] at h
    injection h with h2
    subst h2
    exact ⟨rfl, rfl, rfl⟩
  | flagC s =>
    simp only [procOpt] at h
    injection h with h2
    subst h2
    exact ⟨rfl, rfl, rfl⟩
  | flagUnknown => simp [procOpt] at h

theorem processOpts_folds (opts : List CLIOpt) (st st2 : LoopState)
    (h : processOpts st opts = Except.ok st2) :
    st2.clock = opts.foldl clockStep st.clock ∧
    st2.creator = opts.foldl creatorStep st.creator ∧
    st2.pp.udp_packet_size = opts.foldl udpStep st.pp.udp_packet_size := by
  induction opts generalizing st with
  | nil =>
    simp only [processOpts] at h
    injection h with h2
    subst h2
    exact ⟨rfl, rfl, rfl⟩
  | cons o rest ih =>
    simp only [processOpts] at h
    cases hp : procOpt st o with
    | error e2 =>
      rw [hp] at h
      simp at h
    | ok st3 =>
      rw [hp] at h
      have hf := procOpt_ok_fields st o st3 hp
      have hr := ih st3 h
      rw [List.foldl_cons, List.foldl_cons, List.foldl_cons,
        ← hf.1, ← hf.2.1, ← hf.2.2]
      exact hr

/-- C5: whenever the configured clock rate (atoi of the last -c, default
4) lies outside [1, 15], the run ends with exit status 1 before the Bus
Controller or any Strip Driver is constructed — either at the clock
check itself or at an even earlier failing check, all of which also
return 1. -/
theorem clock_range_exit (opts : List CLIOpt) (uid : Nat) (pinFor : Int → Int)
    (h : effClock opts < 1 ∨ 15 < effClock opts) :
    runMain opts uid pinFor = MainOutcome.earlyExit 1 := by
  cases hp : processOpts initLoopState opts with
  | error e =>
    have he := processOpts_error_one opts initLoopState e hp
    subst he
    simp [runMain, hp]
  | ok st =>
    have hc : st.clock = effClock opts :=
      (processOpts_folds opts initLoopState st hp).1
    cases hcr : st.creator with
    | none => simp [runMain, hp, hcr]
    | some fam =>
      have hlt : st.clock < 1 ∨ 15 < st.clock := by rw [hc]; exact h
      simp [runMain, hp, hcr, if_pos hlt]

/-- C5 witness: option -c 0 (and uid 0, identity pin map): exit 1
before construction. -/
theorem clock_range_exit_witness :
    runMain [CLIOpt.flagc "0"] 0 (fun z => z) = MainOutcome.earlyExit 1 :=
  clock_range_exit [CLIOpt.flagc "0"] 0 (fun z => z) (by decide)

theorem foldl_creator_no_flagT (post : List CLIOpt)
    (hpost : ∀ s, CLIOpt.flagT s ∉ post) (a : Option StripFamily) :
    post.foldl creatorStep a = a := by
  induction post generalizing a with
  | nil => rfl
  | cons o rest ih =>
    have hstep : creatorStep a o = a := by
      cases o with
      | flagT s => exact absurd (List.mem_cons_self _ _) (hpost s)
      | flagc s => rfl
      | flagS s => rfl
      | flagL s => rfl
      | flagi s => rfl
      | flagu s => rfl
      | flaga s => rfl
      | flagG s => rfl
      | flagC s => rfl
      | flagUnknown => rfl
    rw [List.foldl_cons, hstep]
    exact ih (fun s hs => hpost s (List.mem_cons_of_mem _ hs)) a

/-- C6: when the (last) -T argument does not name one of the four
recognised families — parseType returns NULL and no later -T overrides
it — the run ends with exit status 1 before the Bus Controller or any
Strip Driver is constructed. -/
theorem bad_type_exit (pre post : List CLIOpt) (name : String) (uid : Nat)
    (pinFor : Int → Int) (hname : parseType name = none)
    (hpost : ∀ s, CLIOpt.flagT s ∉ post) :
    runMain (pre ++ CLIOpt.flagT name :: post) uid pinFor =
      MainOutcome.earlyExit 1 := by
  cases hp : processOpts initLoopState (pre ++ CLIOpt.flagT name :: post) with
  | error e =>
    have he := processOpts_error_one _ initLoopState e hp
    subst he
    simp [runMain, hp]
  | ok st =>
    have hcr : st.creator = none := by
      have hfold := (processOpts_folds _ initLoopState st hp).2.1
      rw [List.foldl_append, List.foldl_cons] at hfold
      have : creatorStep ((pre.foldl creatorStep initLoopState.creator)) (CLIOpt.flagT name)
          = none := hname
      rw [this, foldl_creator_no_flagT post hpost none] at hfold
      exact hfold
    simp [runMain, hp, hcr]

/-- C6 witness: the single option -T PIXELFOO (an unrecognised name):
exit 1 before construction. -/
theorem bad_type_exit_witness :
    runMain ([] ++ CLIOpt.flagT "PIXELFOO" :: []) 0 (fun z => z) =
      MainOutcome.earlyExit 1 :=
  bad_type_exit [] [] "PIXELFOO" 0 (fun z => z) (by decide)
    (fun s hs => by simp at hs)

theorem processOpts_flaga_bad (s : String) (hs : parseArtnet s = none)
    (pre post : List CLIOpt) (st : LoopState) :
    ∃ e, processOpts st (pre ++ CLIOpt.flaga s :: post) = Except.error e := by
  induction pre generalizing st with
  | nil =>
    refine ⟨1, ?_⟩
    simp [processOpts, procOpt, hs]
  | cons o rest ih =>
    rw [List.cons_append]
    simp only [processOpts]
    cases hp : procOpt st o with
    | error e => exact ⟨e, rfl⟩
    | ok st2 => exact ih st2

/-- C8: when the -a argument does not yield two comma-separated
integers (sscanf result below 2), the run ends with exit status 1
before the adapter, the Bus Controller or any Strip Driver is
constructed, wherever the flag appears among the options. -/
theorem artnet_malformed_exit (pre post : List CLIOpt) (s : String)
    (uid : Nat) (pinFor : Int → Int) (hs : parseArtnet s = none) :
    runMain (pre ++ CLIOpt.flaga s :: post) uid pinFor =
      MainOutcome.earlyExit 1 := by
  obtain ⟨e, he⟩ := processOpts_flaga_bad s hs pre post initLoopState
  have he1 := processOpts_error_one _ initLoopState e he
  subst he1
  simp [runMain, he]

/-- C8 witness: the single option -a 5 (no channel): parseArtnet fails
on the missing comma and the run exits with status 1. -/
theorem artnet_malformed_exit_witness :
    runMain ([] ++ CLIOpt.flaga "5" :: []) 0 (fun z => z) =
      MainOutcome.earlyExit 1 :=
  artnet_malformed_exit [] [] "5" 0 (fun z => z) (by decide)

/-- The udp_packet_size handed to the server by a run of main, when the
run reaches the server call. -/
def udpOf (m : MainOutcome) : Option Int :=
  match m with
  | .serverStart _ pp => some pp.udp_packet_size
  | _ => none

/-- C7 counterexample: with -u 70000 the run reaches the server with
udp_packet_size 70000, strictly above the 65507 IPv4 ceiling — the
value of -u is not bounded above by kMaxUDPPacketSize (the constant is
only printed in the usage text). -/
theorem udp_not_clamped :
    udpOf (runMain [CLIOpt.flagu "70000"] 0 (fun z => z)) = some 70000 ∧
    kMaxUDPPacketSize < 70000 := by
  constructor
  · decide
  · decide

/-- C7 (amended): the -u value is stored into the server options
verbatim (atoi of the last -u argument), with no clamping against the
65507 ceiling, which is advisory only; when the flag is absent the
packet size keeps its 1460 default. -/
theorem udp_effective_value (opts : List CLIOpt) (st : LoopState)
    (h : processOpts initLoopState opts = Except.ok st) :
    st.pp.udp_packet_size = effUdp opts :=
  (processOpts_folds opts initLoopState st h).2.2

/-- C7 amended witness: with no options the packet size is the 1460
default (effUdp of the empty option list). -/
theorem udp_effective_value_witness :
    initLoopState.pp.udp_packet_size = effUdp [] :=
  udp_effective_value [] initLoopState rfl

/-- C9: strip-type resolution is a pure function of the name up to
ASCII case — names with equal tolower images resolve identically, each
of the four family names resolves to its family, and every name
case-insensitively different from all four resolves to none. -/
theorem parseType_resolution :
    (∀ s t : String, lowerChars s = lowerChars t → parseType s = parseType t) ∧
    parseType "APA102" = some StripFamily.APA102 ∧
    parseType "WS2801" = some StripFamily.WS2801 ∧
    parseType "LPD6803" = some StripFamily.LPD6803 ∧
    parseType "LPD8806" = some StripFamily.LPD8806 ∧
    (∀ s : String,
      caseInsensitiveEq s "APA102" = false →
      caseInsensitiveEq s "WS2801" = false →
      caseInsensitiveEq s "LPD6803" = false →
      caseInsensitiveEq s "LPD8806" = false →
      parseType s = none) := by
  refine ⟨?_, by decide, by decide, by decide, by decide, ?_⟩
  · intro s t hst
    simp [parseType, caseInsensitiveEq, hst]
  · intro s h1 h2 h3 h4
    simp [parseType, h1, h2, h3, h4]

/-- C9 witness: apa102 in lower case resolves to the APA102 family and
the unrecognised name FOO resolves to none. -/
theorem parseType_resolution_witness :
    parseType "apa102" = some StripFamily.APA102 ∧ parseType "FOO" = none := by
  constructor
  · rw [parseType_resolution.1 "apa102" "APA102" (by decide)]
    exact parseType_resolution.2.1
  · exact parseType_resolution.2.2.2.2.2 "FOO" (by decide) (by decide)
      (by decide) (by decide)

end SpixelsPush
